import Mathlib

/-!
Verification of the oll-visual-tester image comparison pipeline.

The definitions below are a shallow embedding of `src/functions/image-diff.js`:
pure list and string computations are translated directly, promise-returning
functions become `Except`-valued functions (a promise settles with the FIRST
`resolve`/`reject`; later calls are no-ops, which the embedding reflects by
returning the first settlement), and filesystem effects are threaded through
an explicit `FS` state.  External collaborators (the pixel differ, the capture
tool) are passed in as function parameters, following their contracts.
-/

/-- Errors surfaced by the pipeline, mirroring the `new Error(...)` values in
the source.  `missingParameter f` stands for the "<f> is not set" /
"missing option <f>" rejections. -/
inductive VError where
  | missingParameter (field : String)
  | dirNotExists
  | dirReadFailure
  | fileWaitTimeout
  | cannotCreateDiffImage
  deriving DecidableEq, Repr

/-- Result of `compareImageDirectories`: names to compare, names present only
in the new directory, names present only in the baseline directory. -/
structure MatchResult where
  compare : List String
  missing : List String
  outdated : List String
  deriving DecidableEq, Repr

/-- First loop of `compareImageDirectories` (image-diff.js lines 234-240): for
every new file, for every baseline file, push the new name on exact match. -/
def compareList (filesBaseline filesNew : List String) : List String :=
  filesNew.foldl (fun acc newFile =>
    filesBaseline.foldl (fun acc2 baselineFile =>
      if newFile = baselineFile then acc2 ++ [newFile] else acc2) acc) []

/-- Second loop (lines 243-247): new files that never made it into the
`compare` list. -/
def missingList (filesBaseline filesNew : List String) : List String :=
  filesNew.foldl (fun acc newFile =>
    if (compareList filesBaseline filesNew).any
        (fun fileToCompare => fileToCompare = newFile) then acc
    else acc ++ [newFile]) []

/-- Third loop (lines 250-254): baseline files absent from the new listing. -/
def outdatedList (filesBaseline filesNew : List String) : List String :=
  filesBaseline.foldl (fun acc baselineFile =>
    if filesNew.any (fun newFile => newFile = baselineFile) then acc
    else acc ++ [baselineFile]) []

/-- Pure core of `compareImageDirectories`: the resolved object. -/
def matchLists (filesBaseline filesNew : List String) : MatchResult :=
  ⟨compareList filesBaseline filesNew,
   missingList filesBaseline filesNew,
   outdatedList filesBaseline filesNew⟩

/-- `compareImageDirectories` (image-diff.js lines 212-266): rejects when a
directory option is missing (the first `reject` settles the promise), lists
both directories through the supplied lister, and propagates lister errors
unchanged. -/
def compareImageDirectories (dirBaseline dirNew : Option String)
    (lister : String → Except VError (List String)) : Except VError MatchResult :=
  match dirBaseline with
  | none => .error (.missingParameter "dirBaseline")
  | some dB =>
    match dirNew with
    | none => .error (.missingParameter "dirNew")
    | some dN =>
      match lister dB with
      | .error e => .error e
      | .ok filesBaseline =>
        match lister dN with
        | .error e => .error e
        | .ok filesNew => .ok (matchLists filesBaseline filesNew)

/-- The inner `forEach` of the `compare` loop never pushes when the new name
is absent from the baseline listing. -/
theorem foldl_inner_notmem (n : String) :
    ∀ (l : List String) (acc : List String), n ∉ l →
      l.foldl (fun acc2 b => if n = b then acc2 ++ [n] else acc2) acc = acc := by
  intro l
  induction l with
  | nil => intro acc _; rfl
  | cons x xs ih =>
    intro acc hn
    have hnx : n ≠ x := fun h => hn (h ▸ List.mem_cons_self x xs)
    have hxs : n ∉ xs := fun h => hn (List.mem_cons_of_mem x h)
    simp only [List.foldl_cons, if_neg hnx]
    exact ih acc hxs

/-- The inner `forEach` of the `compare` loop pushes the new name exactly once
when the baseline listing is duplicate-free and contains it. -/
theorem foldl_inner_nodup (n : String) :
    ∀ (l : List String), l.Nodup → ∀ (acc : List String),
      l.foldl (fun acc2 b => if n = b then acc2 ++ [n] else acc2) acc
        = acc ++ (if n ∈ l then [n] else []) := by
  intro l
  induction l with
  | nil => intro _ acc; simp
  | cons x xs ih =>
    intro hl acc
    rcases List.nodup_cons.mp hl with ⟨hx, hxs⟩
    rw [List.foldl_cons]
    by_cases h : n = x
    · rw [if_pos h]
      subst h
      rw [foldl_inner_notmem n xs (acc ++ [n]) hx]
      simp
    · rw [if_neg h]
      rw [ih hxs acc]
      congr 1
      simp [List.mem_cons, h]

/-- Folding a skip-or-push loop filters by the negated condition. -/
theorem foldl_skip_push {α : Type} (c : α → Bool) :
    ∀ (l : List α) (acc : List α),
      l.foldl (fun a x => if c x then a else a ++ [x]) acc
        = acc ++ l.filter (fun x => !c x) := by
  intro l
  induction l with
  | nil => intro acc; simp
  | cons x xs ih =>
    intro acc
    by_cases h : c x = true
    · simp [List.foldl_cons, List.filter_cons, h, ih]
    · simp only [Bool.not_eq_true] at h
      simp [List.foldl_cons, List.filter_cons, h, ih]

/-- Generalized-accumulator form of the outer `compare` loop: with a
duplicate-free baseline listing it appends the filtered new names. -/
theorem compareList_go (filesBaseline : List String) (hB : filesBaseline.Nodup) :
    ∀ (l : List String) (acc : List String),
      l.foldl (fun acc newFile =>
        filesBaseline.foldl (fun acc2 baselineFile =>
          if newFile = baselineFile then acc2 ++ [newFile] else acc2) acc) acc
        = acc ++ l.filter (fun n => decide (n ∈ filesBaseline)) := by
  intro l
  induction l with
  | nil => intro acc; simp
  | cons x xs ih =>
    intro acc
    simp only [List.foldl_cons]
    rw [foldl_inner_nodup x filesBaseline hB acc, ih, List.filter_cons]
    by_cases h : x ∈ filesBaseline
    · simp [h]
    · simp [h]

/-- With a duplicate-free baseline list, `compare` is the new list filtered to
names also present in the baseline list. -/
theorem compareList_filter (filesBaseline filesNew : List String)
    (hB : filesBaseline.Nodup) :
    compareList filesBaseline filesNew
      = filesNew.filter (fun n => decide (n ∈ filesBaseline)) := by
  unfold compareList
  rw [compareList_go filesBaseline hB filesNew []]
  simp

/-- Membership in the `compare` list. -/
theorem mem_compareList (filesBaseline filesNew : List String)
    (hB : filesBaseline.Nodup) (n : String) :
    n ∈ compareList filesBaseline filesNew
      ↔ n ∈ filesNew ∧ n ∈ filesBaseline := by
  rw [compareList_filter filesBaseline filesNew hB]
  simp

/-- The `missing` loop filters the new list by absence from `compare`. -/
theorem missingList_filter_any (filesBaseline filesNew : List String) :
    missingList filesBaseline filesNew
      = filesNew.filter (fun n =>
          !(compareList filesBaseline filesNew).any
            (fun fileToCompare => fileToCompare = n)) := by
  unfold missingList
  have := foldl_skip_push
    (fun n => (compareList filesBaseline filesNew).any
      (fun fileToCompare => fileToCompare = n)) filesNew []
  simpa using this

/-- Searching a list for an exact name with `some`/`any` is membership. -/
theorem any_eq_mem (l : List String) (b : String) :
    l.any (fun x => x = b) = decide (b ∈ l) := by
  induction l with
  | nil => simp
  | cons x xs ih =>
    rw [List.any_cons, ih]
    by_cases h : x = b
    · subst h
      simp
    · have hiff : (b ∈ x :: xs) ↔ (b ∈ xs) := by
        constructor
        · intro hb
          rcases List.mem_cons.mp hb with h1 | h1
          · exact absurd h1.symm h
          · exact h1
        · exact fun hb => List.mem_cons_of_mem x hb
      rw [show decide (b ∈ x :: xs) = decide (b ∈ xs) from decide_eq_decide.mpr hiff]
      simp [h]

/-- The `outdated` loop filters the baseline list by absence from the new
list. -/
theorem outdatedList_filter (filesBaseline filesNew : List String) :
    outdatedList filesBaseline filesNew
      = filesBaseline.filter (fun b => !decide (b ∈ filesNew)) := by
  unfold outdatedList
  have := foldl_skip_push
    (fun b => filesNew.any (fun newFile => newFile = b)) filesBaseline []
  rw [this]
  simp only [List.nil_append]
  apply List.filter_congr
  intro b _
  rw [any_eq_mem]

/-- With duplicate-free inputs, `missing` filters the new list by absence from
the baseline list. -/
theorem missingList_filter (filesBaseline filesNew : List String)
    (hB : filesBaseline.Nodup) :
    missingList filesBaseline filesNew
      = filesNew.filter (fun n => !decide (n ∈ filesBaseline)) := by
  rw [missingList_filter_any]
  apply List.filter_congr
  intro n hn
  rw [any_eq_mem]
  apply congrArg
  apply decide_eq_decide.mpr
  rw [mem_compareList filesBaseline filesNew hB n]
  constructor
  · rintro ⟨_, h⟩
    exact h
  · intro h
    exact ⟨hn, h⟩

/-- Counting common names is symmetric for duplicate-free lists. -/
theorem length_filter_mem_symm (l₁ l₂ : List String)
    (h₁ : l₁.Nodup) (h₂ : l₂.Nodup) :
    (l₁.filter (fun a => decide (a ∈ l₂))).length
      = (l₂.filter (fun a => decide (a ∈ l₁))).length := by
  have e₁ : (l₁.filter (fun a => decide (a ∈ l₂))).toFinset
      = l₁.toFinset ∩ l₂.toFinset := by
    ext a
    simp [List.mem_toFinset, List.mem_filter]
  have e₂ : (l₂.filter (fun a => decide (a ∈ l₁))).toFinset
      = l₂.toFinset ∩ l₁.toFinset := by
    ext a
    simp [List.mem_toFinset, List.mem_filter]
  have n₁ : (l₁.filter (fun a => decide (a ∈ l₂))).Nodup := h₁.filter _
  have n₂ : (l₂.filter (fun a => decide (a ∈ l₁))).Nodup := h₂.filter _
  rw [← List.toFinset_card_of_nodup n₁, ← List.toFinset_card_of_nodup n₂,
    e₁, e₂, Finset.inter_comm]

/-- C1: for every pair of duplicate-free directory listings, the MatchResult
produced by compareImageDirectories partitions the names: compare, missing and
outdated are pairwise disjoint, compare.length + missing.length equals the
number of names listed in the new directory, and compare.length +
outdated.length equals the number of names listed in the baseline
directory. -/
theorem c1_matchResult_partition (filesBaseline filesNew : List String)
    (hB : filesBaseline.Nodup) (hN : filesNew.Nodup) :
    (matchLists filesBaseline filesNew).compare.Disjoint
      (matchLists filesBaseline filesNew).missing ∧
    (matchLists filesBaseline filesNew).compare.Disjoint
      (matchLists filesBaseline filesNew).outdated ∧
    (matchLists filesBaseline filesNew).missing.Disjoint
      (matchLists filesBaseline filesNew).outdated ∧
    (matchLists filesBaseline filesNew).compare.length
      + (matchLists filesBaseline filesNew).missing.length = filesNew.length ∧
    (matchLists filesBaseline filesNew).compare.length
      + (matchLists filesBaseline filesNew).outdated.length
        = filesBaseline.length := by
  have hc : (matchLists filesBaseline filesNew).compare
      = filesNew.filter (fun n => decide (n ∈ filesBaseline)) :=
    compareList_filter filesBaseline filesNew hB
  have hm : (matchLists filesBaseline filesNew).missing
      = filesNew.filter (fun n => !decide (n ∈ filesBaseline)) :=
    missingList_filter filesBaseline filesNew hB
  have ho : (matchLists filesBaseline filesNew).outdated
      = filesBaseline.filter (fun b => !decide (b ∈ filesNew)) :=
    outdatedList_filter filesBaseline filesNew
  refine ⟨?_, ?_, ?_, ?_, ?_⟩
  · intro a ha hm'
    rw [hc, List.mem_filter] at ha
    rw [hm, List.mem_filter] at hm'
    have h1 : a ∈ filesBaseline := by simpa using ha.2
    have h2 : a ∉ filesBaseline := by simpa using hm'.2
    exact h2 h1
  · intro a ha ho'
    rw [hc, List.mem_filter] at ha
    rw [ho, List.mem_filter] at ho'
    have h2 : a ∉ filesNew := by simpa using ho'.2
    exact h2 ha.1
  · intro a ha ho'
    rw [hm, List.mem_filter] at ha
    rw [ho, List.mem_filter] at ho'
    have h1 : a ∉ filesBaseline := by simpa using ha.2
    exact h1 ho'.1
  · rw [hc, hm]
    have hperm :=
      (List.filter_append_perm (fun n => decide (n ∈ filesBaseline)) filesNew).length_eq
    rw [List.length_append] at hperm
    exact hperm
  · rw [hc, ho]
    rw [length_filter_mem_symm filesNew filesBaseline hN hB]
    have hperm :=
      (List.filter_append_perm (fun b => decide (b ∈ filesNew)) filesBaseline).length_eq
    rw [List.length_append] at hperm
    exact hperm

/-- Witness for C1 at the scenario listing from the spec: baseline has
a.jpg and b.jpg, new has a.jpg and c.jpg. -/
theorem c1_matchResult_partition_witness :
    (matchLists ["a.jpg", "b.jpg"] ["a.jpg", "c.jpg"]).compare.Disjoint
      (matchLists ["a.jpg", "b.jpg"] ["a.jpg", "c.jpg"]).missing ∧
    (matchLists ["a.jpg", "b.jpg"] ["a.jpg", "c.jpg"]).compare.Disjoint
      (matchLists ["a.jpg", "b.jpg"] ["a.jpg", "c.jpg"]).outdated ∧
    (matchLists ["a.jpg", "b.jpg"] ["a.jpg", "c.jpg"]).missing.Disjoint
      (matchLists ["a.jpg", "b.jpg"] ["a.jpg", "c.jpg"]).outdated ∧
    (matchLists ["a.jpg", "b.jpg"] ["a.jpg", "c.jpg"]).compare.length
      + (matchLists ["a.jpg", "b.jpg"] ["a.jpg", "c.jpg"]).missing.length
        = (["a.jpg", "c.jpg"] : List String).length ∧
    (matchLists ["a.jpg", "b.jpg"] ["a.jpg", "c.jpg"]).compare.length
      + (matchLists ["a.jpg", "b.jpg"] ["a.jpg", "c.jpg"]).outdated.length
        = (["a.jpg", "b.jpg"] : List String).length :=
  c1_matchResult_partition ["a.jpg", "b.jpg"] ["a.jpg", "c.jpg"]
    (by decide) (by decide)

/-- Collapse runs of the path separator, the part of `path.normalize` the
pipeline relies on (its inputs contain no `.`/`..` segments). -/
def collapseSep : List Char → List Char
  | [] => []
  | [c] => [c]
  | c :: d :: rest =>
    if c = '/' ∧ d = '/' then collapseSep (d :: rest)
    else c :: collapseSep (d :: rest)

/-- Model of `path.normalize` over separator-duplication. -/
def normalizePath (p : String) : String :=
  ⟨collapseSep p.data⟩

/-- Model of `path.normalize(dir + path.sep + name)`. -/
def joinPath (dir name : String) : String :=
  normalizePath (dir ++ "/" ++ name)

/-- Split a character list on dots, as the JS `split('.')` does. -/
def splitOnDot : List Char → List (List Char)
  | [] => [[]]
  | c :: rest =>
    let r := splitOnDot rest
    if c = '.' then [] :: r
    else
      match r with
      | [] => [[c]]
      | h :: t => (c :: h) :: t

/-- Join character-list components with dots, as the JS `join('.')` does. -/
def joinDots : List (List Char) → List Char
  | [] => []
  | [x] => x
  | x :: y :: rest => x ++ '.' :: joinDots (y :: rest)

/-- `tempFileName` (image-diff.js lines 342-348): split on dots, splice the
string temp in before the last component, join with dots. -/
def tempFileName (regularName : String) : String :=
  let diffName := splitOnDot regularName.data
  ⟨joinDots (diffName.take (diffName.length - 1) ++ ["temp".data]
      ++ diffName.drop (diffName.length - 1))⟩

/-- ASCII lower-casing of one character, as `toLowerCase`/the regex i-flag
treat the names involved. -/
def lowerChar (c : Char) : Char :=
  if 65 ≤ c.toNat ∧ c.toNat ≤ 90 then Char.ofNat (c.toNat + 32) else c

/-- ASCII lower-casing of a character list. -/
def lowerStr (l : List Char) : List Char :=
  l.map lowerChar

/-- `pngExtension` (image-diff.js line 431): rewrite a final
wildcard-plus-jpg or wildcard-plus-jpeg run (the regex dot is unescaped) to
the png extension, case-insensitively; other names pass through. -/
def pngExtension (name : String) : String :=
  let l := name.data
  let low := lowerStr name.data
  if ("jpg".data).isSuffixOf low ∧ 4 ≤ l.length then
    ⟨l.take (l.length - 4)⟩ ++ ".png"
  else if ("jpeg".data).isSuffixOf low ∧ 5 ≤ l.length then
    ⟨l.take (l.length - 5)⟩ ++ ".png"
  else name

/-- Filesystem state: files present on disk, plus writes that have been
started but whose completion nobody awaits (`img.toFile(...)` at image-diff.js
line 582 is called without chaining its promise). -/
structure FS where
  files : List String
  pending : List String
  deriving DecidableEq, Repr

/-- Writing a file (an awaited, completed write). -/
def FS.write (fs : FS) (p : String) : FS :=
  if p ∈ fs.files then fs else { fs with files := p :: fs.files }

/-- Starting a write without awaiting its completion. -/
def FS.beginWrite (fs : FS) (p : String) : FS :=
  { fs with pending := p :: fs.pending }

/-- `fs.unlinkSync`: removing a file. -/
def FS.remove (fs : FS) (p : String) : FS :=
  { fs with files := fs.files.erase p }

/-- Verdict of the external pixel differ (`img-diff-js`): same/different,
dimensions, differing-pixel count. -/
structure ImgDiffResult where
  imagesAreSame : Bool
  width : Nat
  height : Nat
  diffCount : Nat
  deriving DecidableEq, Repr

/-- Per-file outcome resolved by `diffImages`.  The source resolves plain JS
objects whose keys differ between branches, so the possibly-absent keys are
Options: the identical-images branch (lines 371-377) sets `testedImage`, the
differing branch (lines 390-396) sets `testedImageName`; `diffPercentage` is
only assigned later, by `compareImages` (line 482). -/
structure DiffOutcome where
  testedImage : Option String
  testedImageName : Option String
  dirBaseline : String
  dirNew : String
  diffImagePath : Option String
  imagesAreSame : Bool
  width : Nat
  height : Nat
  diffCount : Nat
  diffPercentage : Option ℚ
  deriving DecidableEq, Repr

/-- The name a DiffOutcome carries, under whichever key the branch used. -/
def DiffOutcome.name (o : DiffOutcome) : Option String :=
  o.testedImage.orElse (fun _ => o.testedImageName)

/-- `createDiffImage` (image-diff.js lines 531-590): reject on falsy path
options (the first `reject` settles the promise), require the three source
files to exist (any failure, including the existence wait, is wrapped as the
cannot-create error), then join the three images and start writing the result
to `pathDist` WITHOUT awaiting the write before resolving. -/
def createDiffImage (fs : FS) (pathBaseline pathNew pathDiff pathDist : String) :
    Except VError FS :=
  if pathBaseline = "" then .error (.missingParameter "pathBaseline")
  else if pathNew = "" then .error (.missingParameter "pathNew")
  else if pathDiff = "" then .error (.missingParameter "pathDiff")
  else if pathDist = "" then .error (.missingParameter "pathDist")
  else if pathBaseline ∈ fs.files ∧ pathNew ∈ fs.files ∧ pathDiff ∈ fs.files then
    .ok (fs.beginWrite pathDist)
  else .error .cannotCreateDiffImage

/-- `diffImages` (image-diff.js lines 325-405) on its successful differ path:
the external differ reports `r` and writes its raw bitmap to the temp path
(which the `fileExists` poll then finds); identical images delete the temp
file and resolve with a null `diffImagePath`; differing images compose the
artifact via `createDiffImage`, delete the temp file, and resolve with the
artifact path. -/
def diffImages (fs : FS) (dirBaseline dirNew dirDiff imageName diffImageName : String)
    (r : ImgDiffResult) : Except VError (DiffOutcome × FS) :=
  let tempPath := joinPath dirDiff (tempFileName imageName)
  let fs1 := fs.write tempPath
  if r.imagesAreSame then
    .ok ({ testedImage := some imageName
           testedImageName := none
           dirBaseline := normalizePath dirBaseline
           dirNew := normalizePath dirNew
           diffImagePath := none
           imagesAreSame := r.imagesAreSame
           width := r.width
           height := r.height
           diffCount := r.diffCount
           diffPercentage := none }, fs1.remove tempPath)
  else
    match createDiffImage fs1 (joinPath dirBaseline imageName)
        (joinPath dirNew imageName) tempPath (joinPath dirDiff diffImageName) with
    | .error e => .error e
    | .ok fs2 =>
      .ok ({ testedImage := none
             testedImageName := some imageName
             dirBaseline := normalizePath dirBaseline
             dirNew := normalizePath dirNew
             diffImagePath := some (joinPath dirDiff diffImageName)
             imagesAreSame := r.imagesAreSame
             width := r.width
             height := r.height
             diffCount := r.diffCount
             diffPercentage := none }, fs2.remove tempPath)

/-- Diff directory selection (image-diff.js lines 457-459): the caller's
directory when supplied, else a diff subfolder under the new directory. -/
def defaultDiffPath (dirDiff : Option String) (dN : String) : String :=
  match dirDiff with
  | some d => normalizePath d
  | none => normalizePath (dN ++ "/" ++ "/diff/")

/-- Aggregate result of `compareImages`. -/
structure BatchResult where
  passed : List DiffOutcome
  failed : List DiffOutcome
  missing : List String
  outdated : List String
  deriving DecidableEq, Repr

/-- The fan-out over `files.compare` (image-diff.js lines 453-475): one
`diffImages` call per name, diff names rewritten to png; the `Promise.all`
join keeps results in list order and fails on the first rejection. -/
def runAll (dB dN diffPath : String) (differ : String → ImgDiffResult) :
    FS → List String → Except VError (List DiffOutcome × FS)
  | fs, [] => .ok ([], fs)
  | fs, n :: rest =>
    match diffImages fs dB dN diffPath n (pngExtension n) (differ n) with
    | .error e => .error e
    | .ok (o, fs2) =>
      match runAll dB dN diffPath differ fs2 rest with
      | .error e => .error e
      | .ok (os, fs3) => .ok (o :: os, fs3)

/-- `compareImages` (image-diff.js lines 417-510): match the two directories,
resolve immediately when nothing is comparable, otherwise compare every name
(diff directory defaulting to a diff subfolder of the new directory), assign
`diffPercentage` to every result exactly as line 482 computes it, and
partition into passed/failed by `imagesAreSame`. -/
def compareImages (dirBaseline dirNew dirDiff : Option String)
    (lister : String → Except VError (List String))
    (differ : String → ImgDiffResult) (fs : FS) :
    Except VError (BatchResult × FS) :=
  match dirBaseline, dirNew with
  | none, _ => .error (.missingParameter "dirBaseline")
  | some _, none => .error (.missingParameter "dirNew")
  | some dB, some dN =>
    match compareImageDirectories (some dB) (some dN) lister with
    | .error e => .error e
    | .ok files =>
      if files.compare.length = 0 then
        .ok ({ passed := [], failed := [], missing := files.missing,
               outdated := files.outdated }, fs)
      else
        let diffPath := defaultDiffPath dirDiff dN
        match runAll dB dN diffPath differ fs files.compare with
        | .error e => .error e
        | .ok (results, fs2) =>
          let results2 := results.map (fun result =>
            { result with diffPercentage := some ((100 / ((result.width : ℚ) * (result.height : ℚ))) * (result.diffCount : ℚ)) })
          let parts := results2.partition (fun result => result.imagesAreSame)
          .ok ({ passed := parts.1, failed := parts.2,
                 missing := files.missing, outdated := files.outdated }, fs2)

/-- Word characters for the regex word-boundary class. -/
def isWordChar (c : Char) : Bool :=
  c.isAlphanum || c = '_'

/-- The default filter regex of `getImageNames` (image-diff.js line 62): the
dots in the jpg / jpeg / png alternatives are unescaped, so each alternative
is ANY character followed by the literal letters, at end of name,
case-insensitively. -/
def matchesDefaultImageRegex (file : String) : Bool :=
  let low := lowerStr file.data
  (("jpg".data).isSuffixOf low && decide (4 ≤ low.length))
    || (("jpeg".data).isSuffixOf low && decide (5 ≤ low.length))
    || (("png".data).isSuffixOf low && decide (4 ≤ low.length))

/-- The fallback branch of the filter (image-diff.js line 64): when the first
test fails with `extension === null`, the code still builds
`new RegExp('\\b' + extension + '$\\b')`, stringifying null, i.e. the regex
matching a word-bounded literal null at the end of the name. -/
def matchesNullRegex (file : String) : Bool :=
  let l := file.data
  ("null".data).isSuffixOf l &&
    (match l.reverse.get? 4 with
     | none => true
     | some c => !(isWordChar c))

/-- `getImageNames` with no caller-supplied extension (image-diff.js lines
57-75): keep the names accepted by either regex branch; an empty result is
returned as an empty list, not an error. -/
def getImageNamesDefault (files : List String) : List String :=
  files.filter (fun file => matchesDefaultImageRegex file || matchesNullRegex file)

/-- The extension filter as the spec states it: names ending with the
extension .jpg, .jpeg or .png, compared case-insensitively. -/
def specExtensionFilter (file : String) : Bool :=
  ((".jpg".data).isSuffixOf (lowerStr file.data))
    || ((".jpeg".data).isSuffixOf (lowerStr file.data))
    || ((".png".data).isSuffixOf (lowerStr file.data))

/-- Host capability readings taken from `os` (image-diff.js lines 168-170). -/
structure HostSpec where
  cpuCores : Nat
  cpuSpeed : Nat
  freeRam : Nat
  deriving DecidableEq, Repr

/-- Execution mode chosen by `generateImages`. -/
inductive RunMode where
  | series
  | parallel
  deriving DecidableEq, Repr

/-- Mode selection of `generateImages` (image-diff.js lines 171-199):
capability defaults to low, is promoted to capable only when `serial` is
unset and the host passes all three thresholds, and the series branch runs
when `serial` is exactly true or when it is unset on a low host. -/
def generateImagesMode (serial : Option Bool) (host : HostSpec) : RunMode :=
  let capability : String :=
    if serial = none ∧ (4 ≤ host.cpuCores ∧ 2500 < host.cpuSpeed ∧ 8096 ≤ host.freeRam)
    then "capable" else "low"
  if serial = some true ∨ (serial = none ∧ capability = "low") then .series
  else .parallel

/-- One capture-job configuration object (only the fields `generateImages`
touches are modelled; `payload` stands for the untouched rest). -/
structure Job where
  debug : Option Bool
  path : Option String
  payload : Nat
  deriving DecidableEq, Repr

/-- Result of one capture, treated as opaque data from the collaborator. -/
abbrev ShotResult := Nat

/-- `generateInSeries` (image-diff.js lines 101-116): loop over the jobs in
array order, pushing each result or error, then resolve the results when no
error was collected, else reject with the error list. -/
def generateInSeries (shot : Job → Except VError ShotResult) (jobs : List Job) :
    Except (List VError) (List ShotResult) :=
  let state := jobs.foldl (fun acc j =>
    match shot j with
    | .ok result => (acc.1 ++ [result], acc.2)
    | .error e => (acc.1, acc.2 ++ [e])) (([], []) : List ShotResult × List VError)
  if state.2 = [] then .ok state.1 else .error state.2

/-- `generateInParallel` (image-diff.js lines 119-135): all jobs launch; the
`Promise.all` join yields the results in array order or the first failure. -/
def generateInParallel (shot : Job → Except VError ShotResult) :
    List Job → Except VError (List ShotResult)
  | [] => .ok []
  | j :: rest =>
    match shot j with
    | .error e => .error e
    | .ok r =>
      match generateInParallel shot rest with
      | .error e => .error e
      | .ok rs => .ok (r :: rs)

/-- Mutating update of every heap cell the caller's array references
(the `OPTIONS.imagesConfig.map(image => { image.debug = ...; return image })`
pattern of image-diff.js lines 149-164 assigns through each object
reference, so in a heap model it rewrites the referenced cells). -/
def setAll (upd : Job → Job) (refs : List Nat) (heap : List Job) : List Job :=
  refs.foldl (fun h r =>
    match h[r]? with
    | some image => h.set r (upd image)
    | none => h) heap

/-- The override phase of `generateImages` (image-diff.js lines 146-164) in
heap form: assign the debug flag through every reference when the debug
override is set, then the path when the path override is set. -/
def applyOverridesHeap (debug : Option Bool) (pathOverride : Option String)
    (heap : List Job) (refs : List Nat) : List Job :=
  let h1 := match debug with
    | none => heap
    | some b => setAll (fun image => { image with debug := some b }) refs heap
  match pathOverride with
  | none => h1
  | some p => setAll (fun image => { image with path := some p }) refs h1

/-- JavaScript value passed as `imagesConfig`: null/undefined, a real Array,
or a non-Array object with numeric keys and a length (an array-like). -/
inductive ConfigValue where
  | nullV
  | arrayV (jobs : List Job)
  | arrayLike (jobs : List Job)
  deriving DecidableEq, Repr

/-- How a `generateImages` promise settles. -/
inductive GenError where
  | invalidConfiguration
  | serialFailures (errors : List VError)
  | parallelFailure (e : VError)
  deriving DecidableEq, Repr

/-- Settlement plus the capture jobs that actually execute during the call. -/
structure GenRun where
  settled : Except GenError (List ShotResult)
  executed : List Job
  deriving Repr

/-- `generateImages` (image-diff.js lines 89-200), linearized.  The
validation `reject` (line 143) settles the promise first but does NOT stop
execution.  With a null config every later step throws on the null value
before any capture launches; with a non-Array array-like the override `.map`
throws when an override is set, but with no overrides the chosen mode's loop
happily indexes the array-like and runs every job even though the promise has
already been rejected; with a real empty array the series/parallel run has
nothing to execute. -/
def generateImagesRun (imagesConfig : ConfigValue) (debug : Option Bool)
    (pathOverride : Option String) (serial : Option Bool) (host : HostSpec)
    (shot : Job → Except VError ShotResult) : GenRun :=
  match imagesConfig with
  | .nullV => { settled := .error .invalidConfiguration, executed := [] }
  | .arrayLike jobs =>
    if debug ≠ none ∨ pathOverride ≠ none then
      { settled := .error .invalidConfiguration, executed := [] }
    else
      { settled := .error .invalidConfiguration, executed := jobs }
  | .arrayV jobs =>
    let jobs2 :=
      let jd := match debug with
        | none => jobs
        | some b => jobs.map (fun image => { image with debug := some b })
      match pathOverride with
      | none => jd
      | some p => jd.map (fun image => { image with path := some p })
    if jobs.length < 1 then
      { settled := .error .invalidConfiguration, executed := jobs2 }
    else
      match generateImagesMode serial host with
      | .series =>
        { settled := match generateInSeries shot jobs2 with
            | .ok rs => .ok rs
            | .error es => .error (.serialFailures es)
          executed := jobs2 }
      | .parallel =>
        { settled := match generateInParallel shot jobs2 with
            | .ok rs => .ok rs
            | .error e => .error (.parallelFailure e)
          executed := jobs2 }

/-- C7: compareImageDirectories rejects with a missing-parameter error
whenever either directory argument is absent, and a Directory Lister failure
(directory missing or unreadable) is propagated to the caller unchanged. -/
theorem c7_missing_param_and_lister_propagation
    (dirBaseline dirNew : Option String)
    (lister : String → Except VError (List String)) :
    ((dirBaseline = none ∨ dirNew = none) →
      ∃ f, compareImageDirectories dirBaseline dirNew lister
        = .error (.missingParameter f)) ∧
    (∀ dB dN e, dirBaseline = some dB → dirNew = some dN →
      lister dB = .error e →
      compareImageDirectories dirBaseline dirNew lister = .error e) ∧
    (∀ dB dN filesBaseline e, dirBaseline = some dB → dirNew = some dN →
      lister dB = .ok filesBaseline → lister dN = .error e →
      compareImageDirectories dirBaseline dirNew lister = .error e) := by
  refine ⟨?_, ?_, ?_⟩
  · rintro (rfl | rfl)
    · exact ⟨"dirBaseline", rfl⟩
    · cases dirBaseline with
      | none => exact ⟨"dirBaseline", rfl⟩
      | some dB => exact ⟨"dirNew", rfl⟩
  · rintro dB dN e rfl rfl he
    simp [compareImageDirectories, he]
  · rintro dB dN filesBaseline e rfl rfl hfb he
    simp [compareImageDirectories, hfb, he]

/-- Witness for C7: a missing baseline directory, and a lister that fails on
the baseline directory with an error that reaches the caller unchanged. -/
theorem c7_witness :
    (∃ f, compareImageDirectories none (some "new") (fun _ => .ok [])
      = .error (.missingParameter f)) ∧
    compareImageDirectories (some "base") (some "new")
        (fun d => if d = "base" then .error .dirNotExists else .ok [])
      = .error .dirNotExists :=
  ⟨(c7_missing_param_and_lister_propagation none (some "new")
      (fun _ => .ok [])).1 (Or.inl rfl),
   (c7_missing_param_and_lister_propagation (some "base") (some "new")
      (fun d => if d = "base" then .error .dirNotExists else .ok [])).2.1
      "base" "new" .dirNotExists rfl rfl (by simp)⟩

/-- C6 failing input: the name photojpg has no supported image extension yet
the default filter keeps it, because the unescaped regex dot matches the o. -/
theorem c6_unescaped_dot_keeps_nonimage :
    getImageNamesDefault ["photojpg"] = ["photojpg"] ∧
    specExtensionFilter "photojpg" = false := by
  exact ⟨rfl, rfl⟩

/-- C5 failing input: the identical-images branch resolves the name under the
key testedImage while the differing branch resolves it under testedImageName,
so the two outcome shapes differ. -/
theorem c5_branch_key_mismatch :
    ((diffImages ⟨[], []⟩ "b" "n" "d" "s1.jpg" "s1.png"
        ⟨true, 800, 600, 0⟩).toOption.map
      (fun p => (p.1.testedImage, p.1.testedImageName)))
      = some (some "s1.jpg", none) ∧
    ((diffImages ⟨["b/s2.jpg", "n/s2.jpg"], []⟩ "b" "n" "d" "s2.jpg" "s2.png"
        ⟨false, 800, 600, 5⟩).toOption.map
      (fun p => (p.1.testedImage, p.1.testedImageName)))
      = some (none, some "s2.jpg") := by
  exact ⟨rfl, rfl⟩

/-- C3 failing input: after a successful differing comparison the temp diff
file is gone, but the composed artifact is only a pending (never awaited)
write: it is not among the files on disk when the call returns. -/
theorem c3_temp_gone_artifact_only_pending :
    (diffImages ⟨["bdir/shot.jpg", "ndir/shot.jpg"], []⟩ "bdir" "ndir" "ddir"
        "shot.jpg" "shot.png" ⟨false, 2, 2, 1⟩).toOption.map
      (fun p => (p.1.diffImagePath,
        decide ("ddir/shot.temp.jpg" ∈ p.2.files),
        decide ("ddir/shot.png" ∈ p.2.files),
        decide ("ddir/shot.png" ∈ p.2.pending)))
      = some (some "ddir/shot.png", false, false, true) := by
  rfl

/-- C9 failing input: an array-like (non-Array) config with one job rejects
with the invalid-configuration error, but the validation does not
short-circuit, so the capture job still executes. -/
theorem c9_rejects_but_still_captures :
    (generateImagesRun (.arrayLike [⟨none, none, 7⟩]) none none (some true)
        ⟨8, 3000, 16000⟩ (fun _ => .ok 0)).settled
      = .error .invalidConfiguration ∧
    (generateImagesRun (.arrayLike [⟨none, none, 7⟩]) none none (some true)
        ⟨8, 3000, 16000⟩ (fun _ => .ok 0)).executed = [⟨none, none, 7⟩] := by
  exact ⟨rfl, rfl⟩

/-- Reading any reference after a whole-heap `setAll` pass: referenced cells
hold the updated object, others are untouched (for an idempotent field
update, duplicate references included). -/
theorem setAll_getElem (upd : Job → Job) (hid : ∀ j, upd (upd j) = upd j) :
    ∀ (refs : List Nat) (heap : List Job) (r : Nat),
      (setAll upd refs heap)[r]? =
        if r ∈ refs then (heap[r]?).map upd else heap[r]? := by
  intro refs
  induction refs with
  | nil =>
    intro heap r
    simp [setAll]
  | cons r0 rest ih =>
    intro heap r
    have hstep : setAll upd (r0 :: rest) heap
        = setAll upd rest (match heap[r0]? with
            | some image => heap.set r0 (upd image)
            | none => heap) := by
      simp [setAll, List.foldl_cons]
    have hcell : (match heap[r0]? with
        | some image => heap.set r0 (upd image)
        | none => heap)[r]?
        = if r = r0 then (heap[r]?).map upd else heap[r]? := by
      cases hr0 : heap[r0]? with
      | none =>
        by_cases h : r = r0
        · subst h
          simp [hr0]
        · simp [h]
      | some image =>
        by_cases h : r = r0
        · subst h
          have hlt : r < heap.length := by
            by_contra hge
            rw [List.getElem?_eq_none (Nat.le_of_not_lt hge)] at hr0
            exact Option.noConfusion hr0
          rw [List.getElem?_set_self hlt, hr0]
          simp
        · rw [List.getElem?_set_ne (fun he => h he.symm)]
          simp [h]
    rw [hstep, ih, hcell]
    by_cases hrest : r ∈ rest
    · by_cases h0 : r = r0
      · subst h0
        cases hx : heap[r]? with
        | none => simp [hrest]
        | some image => simp [hrest, hid]
      · simp [hrest, h0]
    · by_cases h0 : r = r0
      · subst h0
        simp [hrest, List.mem_cons]
      · simp [hrest, h0, List.mem_cons]

/-- C10: when the debug or path override is supplied, generateImages assigns
through the caller's job-object references, so after the call every object
the caller's imagesConfig array references has its debug and/or path field
rewritten (the objects are mutated in place, not copied). -/
theorem c10_overrides_mutate_callers_objects (heap : List Job) (refs : List Nat)
    (b : Bool) (p : String) (r : Nat) (hr : r ∈ refs) :
    (applyOverridesHeap (some b) none heap refs)[r]?
      = (heap[r]?).map (fun image => { image with debug := some b }) ∧
    (applyOverridesHeap none (some p) heap refs)[r]?
      = (heap[r]?).map (fun image => { image with path := some p }) ∧
    (applyOverridesHeap (some b) (some p) heap refs)[r]?
      = (heap[r]?).map (fun image =>
          { image with debug := some b, path := some p }) := by
  refine ⟨?_, ?_, ?_⟩
  · show (setAll (fun image => { image with debug := some b }) refs heap)[r]? = _
    rw [setAll_getElem (fun image => { image with debug := some b })
      (fun j => rfl) refs heap r, if_pos hr]
  · show (setAll (fun image => { image with path := some p }) refs heap)[r]? = _
    rw [setAll_getElem (fun image => { image with path := some p })
      (fun j => rfl) refs heap r, if_pos hr]
  · show (setAll (fun image => { image with path := some p }) refs
        (setAll (fun image => { image with debug := some b }) refs heap))[r]? = _
    rw [setAll_getElem (fun image => { image with path := some p })
      (fun j => rfl) refs _ r, if_pos hr]
    rw [setAll_getElem (fun image => { image with debug := some b })
      (fun j => rfl) refs heap r, if_pos hr]
    cases heap[r]? with
    | none => rfl
    | some image => rfl

/-- Witness for C10 at a concrete heap: the caller's second object is
rewritten by the override pass. -/
theorem c10_witness :
    (applyOverridesHeap (some true) none
        [⟨none, none, 1⟩, ⟨some false, some "q", 2⟩] [1])[1]?
      = some ⟨some true, some "q", 2⟩ ∧
    (applyOverridesHeap none (some "v")
        [⟨none, none, 1⟩, ⟨some false, some "q", 2⟩] [1])[1]?
      = some ⟨some false, some "v", 2⟩ ∧
    (applyOverridesHeap (some true) (some "v")
        [⟨none, none, 1⟩, ⟨some false, some "q", 2⟩] [1])[1]?
      = some ⟨some true, some "v", 2⟩ := by
  have h := c10_overrides_mutate_callers_objects
    [⟨none, none, 1⟩, ⟨some false, some "q", 2⟩] [1] true "v" 1 (by simp)
  exact ⟨h.1, h.2.1, h.2.2⟩

/-- The series loop pushes each result or error in array order. -/
theorem series_fold (shot : Job → Except VError ShotResult) :
    ∀ (jobs : List Job) (acc : List ShotResult × List VError),
      jobs.foldl (fun acc j =>
        match shot j with
        | .ok result => (acc.1 ++ [result], acc.2)
        | .error e => (acc.1, acc.2 ++ [e])) acc
        = (acc.1 ++ jobs.filterMap (fun j => (shot j).toOption),
           acc.2 ++ jobs.filterMap (fun j =>
             match shot j with
             | .error e => some e
             | .ok _ => none)) := by
  intro jobs
  induction jobs with
  | nil => intro acc; simp
  | cons j rest ih =>
    intro acc
    rw [List.foldl_cons]
    cases hj : shot j with
    | ok result =>
      rw [ih]
      simp [List.filterMap_cons, hj, Except.toOption]
    | error e =>
      rw [ih]
      simp [List.filterMap_cons, hj, Except.toOption]

/-- C8: for every generateImages call, an explicitly set serial option is
honored; otherwise the jobs run concurrently exactly when the host has at
least 4 cores, per-core clock above 2500 and at least 8096 MB free, and run
strictly sequentially in array order otherwise (the series runner yields the
results in job-array order). -/
theorem c8_mode_selection (serial : Option Bool) (host : HostSpec) :
    (∀ b, serial = some b →
      generateImagesMode serial host
        = (if b then RunMode.series else RunMode.parallel)) ∧
    (serial = none →
      (generateImagesMode serial host = RunMode.parallel
        ↔ (4 ≤ host.cpuCores ∧ 2500 < host.cpuSpeed ∧ 8096 ≤ host.freeRam))) ∧
    (∀ (shot : Job → Except VError ShotResult) (jobs : List Job),
      (∀ j ∈ jobs, (shot j).isOk = true) →
      generateInSeries shot jobs
        = .ok (jobs.filterMap (fun j => (shot j).toOption))) := by
  refine ⟨?_, ?_, ?_⟩
  · rintro b rfl
    cases b with
    | true => simp [generateImagesMode]
    | false => simp [generateImagesMode]
  · rintro rfl
    by_cases hc : 4 ≤ host.cpuCores ∧ 2500 < host.cpuSpeed ∧ 8096 ≤ host.freeRam
    · simp [generateImagesMode, hc]
    · simp [generateImagesMode, hc]
  · intro shot jobs hok
    unfold generateInSeries
    rw [series_fold shot jobs ([], [])]
    have herr : jobs.filterMap (fun j =>
        match shot j with
        | .error e => some e
        | .ok _ => none) = [] := by
      apply List.filterMap_eq_nil_iff.mpr
      intro j hj
      have := hok j hj
      cases hs : shot j with
      | ok r => simp
      | error e => rw [hs] at this; simp [Except.isOk, Except.toBool] at this
    simp [herr]

/-- Witness for C8: serial honored on a weak host, the capable host goes
parallel, and a concrete series run returns results in array order. -/
theorem c8_mode_selection_witness :
    generateImagesMode (some true) ⟨2, 1000, 1024⟩
      = (if true then RunMode.series else RunMode.parallel) ∧
    generateImagesMode none ⟨8, 3000, 16000⟩ = RunMode.parallel ∧
    generateInSeries (fun j => .ok j.payload) [⟨none, none, 1⟩, ⟨none, none, 2⟩]
      = .ok [1, 2] := by
  refine ⟨?_, ?_, ?_⟩
  · exact (c8_mode_selection (some true) ⟨2, 1000, 1024⟩).1 true rfl
  · exact ((c8_mode_selection none ⟨8, 3000, 16000⟩).2.1 rfl).mpr (by decide)
  · have := (c8_mode_selection none ⟨8, 3000, 16000⟩).2.2
      (fun j => .ok j.payload) [⟨none, none, 1⟩, ⟨none, none, 2⟩]
      (by intro j hj; rfl)
    simpa [Except.toOption] using this

/-- Every outcome resolved by `diffImages` carries the compared name (under
one of the two keys), copies the differ verdict, and has a diff-image path
exactly when the images differ. -/
theorem diffImages_ok (fs : FS) (dB dN dP imageName diffImageName : String)
    (r : ImgDiffResult) (o : DiffOutcome) (fs2 : FS)
    (h : diffImages fs dB dN dP imageName diffImageName r = .ok (o, fs2)) :
    o.name = some imageName ∧
    o.imagesAreSame = r.imagesAreSame ∧
    (o.imagesAreSame = true → o.diffImagePath = none) ∧
    (o.imagesAreSame = false → o.diffImagePath ≠ none) := by
  unfold diffImages at h
  split at h
  next hs =>
    simp only [Except.ok.injEq, Prod.mk.injEq] at h
    obtain ⟨ho, _⟩ := h
    subst ho
    refine ⟨rfl, rfl, fun _ => rfl, fun hf => ?_⟩
    simp only at hf
    rw [hs] at hf
    exact Bool.noConfusion hf
  next hs =>
    dsimp only at h
    split at h
    next e he => exact Except.noConfusion h
    next fs3 hc =>
      simp only [Except.ok.injEq, Prod.mk.injEq] at h
      obtain ⟨ho, _⟩ := h
      subst ho
      refine ⟨rfl, rfl, fun ht => ?_, fun _ => by simp⟩
      simp only at ht
      exact absurd ht hs

/-- The fan-out keeps one outcome per compared name, in order, each obeying
the diff-image-path discipline. -/
theorem runAll_spec (dB dN dP : String) (differ : String → ImgDiffResult) :
    ∀ (names : List String) (fs : FS) (outs : List DiffOutcome) (fs2 : FS),
      runAll dB dN dP differ fs names = .ok (outs, fs2) →
      outs.map DiffOutcome.name = names.map some ∧
      ∀ o ∈ outs,
        (o.imagesAreSame = true → o.diffImagePath = none) ∧
        (o.imagesAreSame = false → o.diffImagePath ≠ none) := by
  intro names
  induction names with
  | nil =>
    intro fs outs fs2 h
    simp only [runAll, Except.ok.injEq, Prod.mk.injEq] at h
    obtain ⟨ho, _⟩ := h
    subst ho
    exact ⟨rfl, fun o ho => absurd ho (List.not_mem_nil o)⟩
  | cons n rest ih =>
    intro fs outs fs2 h
    rw [runAll] at h
    split at h
    next e he => exact Except.noConfusion h
    next o1 fsx hd =>
      split at h
      next e he => exact Except.noConfusion h
      next os fsy hr =>
        simp only [Except.ok.injEq, Prod.mk.injEq] at h
        obtain ⟨ho, _⟩ := h
        subst ho
        obtain ⟨hname, hsame, hpass, hfail⟩ :=
          diffImages_ok fs dB dN dP n (pngExtension n) (differ n) o1 fsx hd
        obtain ⟨hnames, hinv⟩ := ih fsx os fsy hr
        constructor
        · rw [List.map_cons, List.map_cons, hname, hnames]
        · intro o ho
          rcases List.mem_cons.mp ho with rfl | hmem
          · exact ⟨hpass, hfail⟩
          · exact hinv o hmem

/-- C2: for every successful compareImages run, the names carried by the
passed and failed outcomes together are exactly the names of the MatchResult
compare list, every failed entry has a non-null diffImagePath, and every
passed entry has a null diffImagePath. -/
theorem c2_passed_failed_partition (dB dN : String) (dirDiff : Option String)
    (lister : String → Except VError (List String))
    (differ : String → ImgDiffResult) (fs fs2 : FS)
    (m : MatchResult) (b : BatchResult)
    (hm : compareImageDirectories (some dB) (some dN) lister = .ok m)
    (hb : compareImages (some dB) (some dN) dirDiff lister differ fs
      = .ok (b, fs2)) :
    List.Perm ((b.passed ++ b.failed).map DiffOutcome.name)
      (m.compare.map some) ∧
    (∀ o ∈ b.failed, o.diffImagePath ≠ none) ∧
    (∀ o ∈ b.passed, o.diffImagePath = none) := by
  unfold compareImages at hb
  dsimp only at hb
  rw [hm] at hb
  dsimp only at hb
  by_cases hlen : m.compare.length = 0
  · rw [if_pos hlen] at hb
    simp only [Except.ok.injEq, Prod.mk.injEq] at hb
    obtain ⟨hbb, _⟩ := hb
    subst hbb
    have hcomp : m.compare = [] := List.length_eq_zero.mp hlen
    refine ⟨by simp [hcomp], ?_, ?_⟩
    · intro o ho
      exact absurd ho (List.not_mem_nil o)
    · intro o ho
      exact absurd ho (List.not_mem_nil o)
  · rw [if_neg hlen] at hb
    split at hb
    next e he => exact Except.noConfusion hb
    next results fs3 hr =>
      obtain ⟨hnames, hinv⟩ := runAll_spec dB dN (defaultDiffPath dirDiff dN)
        differ m.compare fs results fs3 hr
      simp only [List.partition_eq_filter_filter, Except.ok.injEq,
        Prod.mk.injEq] at hb
      obtain ⟨hbb, _⟩ := hb
      subst hbb
      refine ⟨?_, ?_, ?_⟩
      · have hmap : (results.map (fun result =>
            { result with diffPercentage := some ((100 / ((result.width : ℚ) * (result.height : ℚ))) * (result.diffCount : ℚ)) })).map DiffOutcome.name
            = m.compare.map some := by
          rw [List.map_map]
          exact hnames
        have hperm := (List.filter_append_perm
          (fun (result : DiffOutcome) => result.imagesAreSame)
          (results.map (fun result =>
            { result with diffPercentage := some ((100 / ((result.width : ℚ) * (result.height : ℚ))) * (result.diffCount : ℚ)) }))).map DiffOutcome.name
        rw [hmap] at hperm
        exact hperm
      · intro o ho
        rw [List.mem_filter] at ho
        obtain ⟨ho2, hcond⟩ := ho
        obtain ⟨o0, ho0, rfl⟩ := List.mem_map.mp ho2
        have hfs : o0.imagesAreSame = false := by simpa using hcond
        exact (hinv o0 ho0).2 hfs
      · intro o ho
        rw [List.mem_filter] at ho
        obtain ⟨ho2, hcond⟩ := ho
        obtain ⟨o0, ho0, rfl⟩ := List.mem_map.mp ho2
        have hfs : o0.imagesAreSame = true := by simpa using hcond
        exact (hinv o0 ho0).1 hfs

/-- Spec scenario lister: both directories hold exactly screenshot2.jpg. -/
def scenarioLister : String → Except VError (List String) :=
  fun _ => .ok ["screenshot2.jpg"]

/-- Spec scenario differ: 207717 differing pixels on an 800 by 3665 image. -/
def scenarioDiffer : String → ImgDiffResult :=
  fun _ => ⟨false, 800, 3665, 207717⟩

/-- Spec scenario filesystem: the two source screenshots exist. -/
def scenarioFS : FS :=
  ⟨["baseline/screenshot2.jpg", "new/screenshot2.jpg"], []⟩

/-- C4: every outcome returned by compareImages carries diffPercentage equal
to 100 * diffCount / (width * height); in particular, the comparison with
diffCount 207717 on an 800 by 3665 image yields a diffPercentage between
7.0844 and 7.0845 (approximately 7.0845). -/
theorem c4_diff_percentage :
    (∀ (dB dN : String) (dirDiff : Option String)
        (lister : String → Except VError (List String))
        (differ : String → ImgDiffResult) (fs fs2 : FS) (b : BatchResult),
      compareImages (some dB) (some dN) dirDiff lister differ fs
        = .ok (b, fs2) →
      ∀ o ∈ b.passed ++ b.failed,
        o.diffPercentage
          = some (100 * (o.diffCount : ℚ) / ((o.width : ℚ) * (o.height : ℚ)))) ∧
    (∃ b fs2 q,
      compareImages (some "baseline") (some "new") (some "diff")
          scenarioLister scenarioDiffer scenarioFS = .ok (b, fs2) ∧
      b.failed.map DiffOutcome.diffPercentage = [some q] ∧
      (70844 : ℚ) / 10000 < q ∧ q < (70845 : ℚ) / 10000) := by
  constructor
  · intro dB dN dirDiff lister differ fs fs2 b hb
    unfold compareImages at hb
    dsimp only at hb
    split at hb
    next e he => exact Except.noConfusion hb
    next files hfiles =>
      split at hb
      next hlen =>
        simp only [Except.ok.injEq, Prod.mk.injEq] at hb
        obtain ⟨hbb, _⟩ := hb
        subst hbb
        intro o ho
        simp at ho
      next hlen =>
        split at hb
        next e he => exact Except.noConfusion hb
        next results fs3 hr =>
          simp only [List.partition_eq_filter_filter, Except.ok.injEq,
            Prod.mk.injEq] at hb
          obtain ⟨hbb, _⟩ := hb
          subst hbb
          intro o ho
          have ho2 : o ∈ results.map (fun result =>
              { result with diffPercentage := some ((100 / ((result.width : ℚ) * (result.height : ℚ))) * (result.diffCount : ℚ)) }) := by
            rcases List.mem_append.mp ho with h1 | h1
            · exact (List.mem_filter.mp h1).1
            · exact (List.mem_filter.mp h1).1
          obtain ⟨o0, _, rfl⟩ := List.mem_map.mp ho2
          show some ((100 / ((o0.width : ℚ) * (o0.height : ℚ))) * (o0.diffCount : ℚ)) = _
          rw [div_mul_eq_mul_div]
  · refine ⟨_, _, _, rfl, rfl, ?_, ?_⟩
    · norm_num [scenarioDiffer]
    · norm_num [scenarioDiffer]

/-- Witness lister: both directories hold exactly a.png. -/
def passLister : String → Except VError (List String) :=
  fun _ => .ok ["a.png"]

/-- Witness differ: the images are identical. -/
def passDiffer : String → ImgDiffResult :=
  fun _ => ⟨true, 800, 600, 0⟩

/-- Witness for C2 at a concrete run: one identical pair named a.png. -/
theorem c2_passed_failed_partition_witness :
    ∃ b fs2, compareImages (some "base") (some "new") none passLister
        passDiffer ⟨[], []⟩ = .ok (b, fs2) ∧
      List.Perm ((b.passed ++ b.failed).map DiffOutcome.name)
        ((matchLists ["a.png"] ["a.png"]).compare.map some) ∧
      (∀ o ∈ b.failed, o.diffImagePath ≠ none) ∧
      (∀ o ∈ b.passed, o.diffImagePath = none) := by
  obtain ⟨h1, h2, h3⟩ := c2_passed_failed_partition "base" "new" none
    passLister passDiffer ⟨[], []⟩ _ (matchLists ["a.png"] ["a.png"]) _ rfl rfl
  exact ⟨_, _, rfl, h1, h2, h3⟩

/-- Witness for C4 at the spec scenario run. -/
theorem c4_diff_percentage_witness :
    ∃ b fs2, compareImages (some "baseline") (some "new") (some "diff")
        scenarioLister scenarioDiffer scenarioFS = .ok (b, fs2) ∧
      ∀ o ∈ b.passed ++ b.failed,
        o.diffPercentage
          = some (100 * (o.diffCount : ℚ) / ((o.width : ℚ) * (o.height : ℚ))) := by
  refine ⟨_, _, rfl, ?_⟩
  exact c4_diff_percentage.1 "baseline" "new" (some "diff") scenarioLister
    scenarioDiffer scenarioFS _ _ rfl
